import Mathlib

/-!
Verification of the `turinglib` Turing-machine interpreter (`turinglib/core.py`).

The Python classes `TapeVar`, `ActionPrimitive`, `Action`, `State` and
`StateMachine` are embedded shallowly.  Python object references between
states (transition tables point at other state objects, possibly cyclically)
are modelled by an environment `env : StateId → State` mapping object
identities to their data.  Python exceptions are modelled by `PyErr`;
functions that can raise return `Except PyErr _`, and `StateMachine.step`
additionally returns the (possibly partially mutated) machine, because
Python exceptions do not roll back in-place mutation of `self`.
-/

namespace TuringLib

/-- A payload storable in a `TapeVar`: the source allows `str | int`
(`notation: Optional[str | int]`). -/
inductive PyVal where
  | pstr : String → PyVal
  | pint : Int → PyVal
deriving DecidableEq

/-- The type `TapeVar` wraps an optional payload; `none` is the blank.  Python
`__eq__`/`__hash__` compare the payload, so value equality of this type is
exactly the equality of the source. -/
abbrev TapeVar := Option PyVal

/-- The shared blank symbol `BLANK = TapeVar(None)`. -/
def BLANK : TapeVar := none

/-- The Python exceptions the embedded code can raise:
`AttributeError` (attribute lookup on an object lacking it),
`MemoryError` (tape safety cap), `NameError`/`UnboundLocalError`
(use of an unassigned variable), `AssertionError` (failed `assert`),
`IndexError` (list index out of range). -/
inductive PyErr where
  | attributeError
  | memoryError
  | nameError
  | assertionError
  | indexError
deriving DecidableEq

/-- The class `ActionPrimitive(notation, op)`: a named head-displacement function.
`perform(head)` applies `op`. -/
structure ActionPrimitive where
  label : String
  op : Int → Int

/-- What a transition table stores in its action slot.  `State.update`
evaluates `action.value.perform(head)`:
* `enumMember p` models a member of an `Enum` class (such as `Action.R`,
  `Action.L`, `Action.N`, or a user-defined enum) whose `.value` attribute
  is the `ActionPrimitive` `p`;
* `rawPrim p` models a bare `ActionPrimitive` object, which has **no**
  `.value` attribute, so accessing `.value` raises `AttributeError`. -/
inductive ActVal where
  | enumMember (p : ActionPrimitive)
  | rawPrim (p : ActionPrimitive)

/-- Python object identity for `State` objects. -/
abbrev StateId := Nat

/-- A `State`: a label and a transition table
`dict[TapeVar, tuple[State, TapeVar, Action]]`, with the referenced next
state given by its object id. -/
structure State where
  label : String
  transitions : List (TapeVar × (StateId × TapeVar × ActVal))

/-- Python `dict.get` on the transition table (keys compared by `TapeVar`
value equality, matching `__eq__`/`__hash__`). -/
def tlookup {α : Type} : List (TapeVar × α) → TapeVar → Option α
  | [], _ => none
  | (k, v) :: rest, tv => if k = tv then some v else tlookup rest tv

/-- The method `State.update(tv, head, implicit_blank_halt)` from `core.py`.

The source first runs
`assert all(isinstance(k, TapeVar) for k in self.transitions)`; in this
typed embedding every key is a `TapeVar`, so the assert always passes.
Then:
* if `implicit_blank_halt and tv == BLANK and BLANK not in self.transitions`:
  return `(None, tv, head)`;
* `result = self.transitions.get(tv)`; if `None`: return `(None, tv, head)`;
* otherwise `(next_state, new_tv, action) = result` and the source returns
  `(next_state, new_tv, action.value.perform(head))` — the `.value`
  attribute access succeeds only for enum members and raises
  `AttributeError` on a bare `ActionPrimitive`. -/
def State.update (s : State) (tv : TapeVar) (head : Int)
    (implicit_blank_halt : Bool) :
    Except PyErr (Option StateId × TapeVar × Int) :=
  if implicit_blank_halt ∧ tv = BLANK ∧ (tlookup s.transitions BLANK).isNone then
    .ok (none, tv, head)
  else
    match tlookup s.transitions tv with
    | none => .ok (none, tv, head)
    | some (next_state, new_tv, act) =>
      match act with
      | .enumMember p => .ok (some next_state, new_tv, p.op head)
      | .rawPrim _ => .error .attributeError

/-- The `StateMachine` object state: tape, flags, current state reference
(`None` once something stores an absent state there), logical head, and
`tape_begin` (the logical coordinate of `tape[0]`). -/
structure StateMachine where
  env : StateId → State
  tape : List TapeVar
  implicit_blank_halt : Bool
  verbose : Bool
  current : Option StateId
  head : Int
  tape_begin : Int

/-- Python list index adjustment: a negative index counts from the end. -/
def pyIndex (n : Nat) (i : Int) : Int := if i < 0 then i + n else i

/-- Python `l[i]` on a list: negative indices wrap once; out-of-range
raises `IndexError`. -/
def pyGet (l : List TapeVar) (i : Int) : Except PyErr TapeVar :=
  if h : 0 ≤ pyIndex l.length i ∧ pyIndex l.length i < (l.length : Int) then
    .ok (l.get ⟨(pyIndex l.length i).toNat, by omega⟩)
  else
    .error .indexError

/-- Python `l[i] = v` on a list, same index rules as `pyGet`. -/
def pySet (l : List TapeVar) (i : Int) (v : TapeVar) : Except PyErr (List TapeVar) :=
  if 0 ≤ pyIndex l.length i ∧ pyIndex l.length i < (l.length : Int) then
    .ok (l.set (pyIndex l.length i).toNat v)
  else
    .error .indexError

/-- The constructor `StateMachine.__init__(start, input_tape, start_point, verbose,
implicit_blank_halt)`: asserts `0 <= start_point < len(input_tape)`
(and that `input_tape[start_point]` is a `TapeVar`, automatic here),
then sets `tape`, the flags, `current = start`, `head = start_point`,
`tape_begin = 0`. -/
def mkStateMachine (env : StateId → State) (start : StateId)
    (input_tape : List TapeVar) (start_point : Int)
    (verbose : Bool) (implicit_blank_halt : Bool) :
    Except PyErr StateMachine :=
  if 0 ≤ start_point ∧ start_point < (input_tape.length : Int) then
    .ok { env := env
          tape := input_tape
          implicit_blank_halt := implicit_blank_halt
          verbose := verbose
          current := some start
          head := start_point
          tape_begin := 0 }
  else
    .error .assertionError

/-- The right-growth loop of `StateMachine.step`, by the number of
iterations still to run.  The source loop
`while new_head - self.tape_begin >= len(self.tape)` appends one `BLANK`
per iteration, so with `tape_begin` fixed it runs exactly
`(new_head - tape_begin + 1 - len(tape)).toNat` times (see `growRight`);
before each append it checks `if len(self.tape) > 10**6` and raises
`MemoryError`. -/
def growRightN (t : List TapeVar) : Nat → List TapeVar × Option PyErr
  | 0 => (t, none)
  | n + 1 =>
    if t.length > 1000000 then (t, some .memoryError)
    else growRightN (t ++ [BLANK]) n

/-- The loop `while new_head - self.tape_begin >= len(self.tape): ... append(BLANK)`
with its safety check, returning the (possibly partially grown) tape and
the raised exception, if any. -/
def growRight (t : List TapeVar) (tape_begin new_head : Int) :
    List TapeVar × Option PyErr :=
  growRightN t (new_head - tape_begin + 1 - (t.length : Int)).toNat

/-- The left-growth loop of `StateMachine.step`, by remaining iteration
count.  The source loop `while self.tape_begin > new_head` prepends one
`BLANK` and decrements `tape_begin` per iteration, so it runs exactly
`(tape_begin - new_head).toNat` times (see `growLeft`); before each
prepend it checks `if len(self.tape) > 10**6` and raises `MemoryError`. -/
def growLeftN (t : List TapeVar) (tape_begin : Int) :
    Nat → List TapeVar × Int × Option PyErr
  | 0 => (t, tape_begin, none)
  | n + 1 =>
    if t.length > 1000000 then (t, tape_begin, some .memoryError)
    else growLeftN (BLANK :: t) (tape_begin - 1) n

/-- The loop `while self.tape_begin > new_head: ... insert(0, BLANK); tape_begin -= 1`
with its safety check. -/
def growLeft (t : List TapeVar) (tape_begin new_head : Int) :
    List TapeVar × Int × Option PyErr :=
  growLeftN t tape_begin (tape_begin - new_head).toNat

/-- The method `StateMachine.step()` from `core.py`.  Returns the machine object after
the call together with the outcome: `.ok true` (continue), `.ok false`
(halted: no valid transition; the source prints and returns `False`
without touching `current`, tape or head), or `.error e` for a raised
exception, with the machine reflecting all mutations made before the
raise.  If `current` is `None`, `self.current.update(...)` raises
`AttributeError`. -/
def step (m : StateMachine) : StateMachine × Except PyErr Bool :=
  match m.current with
  | none => (m, .error .attributeError)
  | some sid =>
    match pyGet m.tape (m.head - m.tape_begin) with
    | .error e => (m, .error e)
    | .ok tape_value =>
      match (m.env sid).update tape_value m.head m.implicit_blank_halt with
      | .error e => (m, .error e)
      | .ok (none, _, _) => (m, .ok false)
      | .ok (some next_state, new_tv, new_head) =>
        match pySet m.tape (m.head - m.tape_begin) new_tv with
        | .error e => (m, .error e)
        | .ok tape1 =>
          match growRight tape1 m.tape_begin new_head with
          | (tape2, some e) => ({ m with tape := tape2 }, .error e)
          | (tape2, none) =>
            match growLeft tape2 m.tape_begin new_head with
            | (tape3, tb3, some e) =>
              ({ m with tape := tape3, tape_begin := tb3 }, .error e)
            | (tape3, tb3, none) =>
              ({ m with tape := tape3, tape_begin := tb3,
                        head := new_head, current := some next_state },
               .ok true)

/-- The loop of `StateMachine.run`:
`for _ in range(max_steps): if not self.step(): break`.
Returns the machine after the loop, `.ok ()` or the propagated exception,
and (as derived instrumentation used only to state properties) the number
of `step()` calls made. -/
def runLoop (m : StateMachine) : Nat → StateMachine × Except PyErr Unit × Nat
  | 0 => (m, .ok (), 0)
  | n + 1 =>
    match step m with
    | (m', .ok true) =>
      match runLoop m' n with
      | (m'', r, k) => (m'', r, k + 1)
    | (m', .ok false) => (m', .ok (), 1)
    | (m', .error e) => (m', .error e, 1)

/-- Number of `step()` calls `run(max_steps)` actually makes. -/
def stepsTaken (m : StateMachine) (max_steps : Nat) : Nat :=
  (runLoop m max_steps).2.2

/-- The method `StateMachine.run(max_steps)` from `core.py`: runs the loop, then
executes `print(f"Machine halted after \x7b_ + 1\x7d steps.")` — which
raises `UnboundLocalError` (a `NameError`) when `max_steps == 0`, because
the loop variable `_` was never bound — and finally returns
`(self.tape, self.current)`.  An exception raised inside `step`
propagates out of `run` before the print. -/
def run (m : StateMachine) (max_steps : Nat) :
    StateMachine × Except PyErr (List TapeVar × Option StateId) :=
  match runLoop m max_steps with
  | (m', .error e, _) => (m', .error e)
  | (m', .ok _, _) =>
    if max_steps = 0 then (m', .error .nameError)
    else (m', .ok (m'.tape, m'.current))

/-- The machine-level invariant maintained by construction and stepping:
the head addresses an existing cell (`0 ≤ head - tape_begin < len tape`)
and `tape_begin ≤ 0`. -/
def Inv (m : StateMachine) : Prop :=
  0 ≤ m.head - m.tape_begin ∧
    m.head - m.tape_begin < (m.tape.length : Int) ∧ m.tape_begin ≤ 0

/-- Total number of cells the tape must hold so that both the old window
and the new head position are covered: `max len (new_head - tape_begin + 1)`
for the right side plus `max 0 (tape_begin - new_head)` prepended cells. -/
def needLen (m : StateMachine) (new_head : Int) : Int :=
  max (m.tape.length : Int) (new_head - m.tape_begin + 1) +
    max 0 (m.tape_begin - new_head)

/-- Reference iterator, written from the words of the spec ("repeatedly calls
`step()` up to `max_steps` times, stopping early on the first halt"): apply
`step` up to `n` times, stopping at the first halt or exception.  Compared
against the `run` loop of the source. -/
def iterStep (m : StateMachine) : Nat → StateMachine × Except PyErr Unit
  | 0 => (m, .ok ())
  | n + 1 =>
    match step m with
    | (m', .ok true) => iterStep m' n
    | (m', .ok false) => (m', .ok ())
    | (m', .error e) => (m', .error e)

/-! ### Concrete machines used as witnesses, counterexamples and failing inputs -/

/-- The symbol `TapeVar(0)`. -/
def sym0 : TapeVar := some (.pint 0)

/-- The symbol `TapeVar(1)`. -/
def sym1 : TapeVar := some (.pint 1)

/-- The primitive of `Action.R`: `ActionPrimitive("R", lambda h: h + 1)`. -/
def rPrim : ActionPrimitive := ⟨"R", fun h => h + 1⟩

/-- The primitive of `Action.N`: `ActionPrimitive("N", lambda h: h)`. -/
def nPrim : ActionPrimitive := ⟨"N", fun h => h⟩

/-- The state built as `State("q0", dict())`: no transitions. -/
def haltSt : State := ⟨"q0", []⟩

/-- The machine of `test_machine_halts_properly`:
`StateMachine(start=q0, input_tape=[TapeVar(0)], start_point=0)` with `q0`
having no transitions. -/
def haltM : StateMachine :=
  { env := fun _ => haltSt
    tape := [sym0]
    implicit_blank_halt := true
    verbose := false
    current := some 0
    head := 0
    tape_begin := 0 }

/-- A state looping in place on blank: `{BLANK: (q0, BLANK, Action.N)}`. -/
def loopSt : State := ⟨"q0", [(BLANK, (0, BLANK, .enumMember nPrim))]⟩

/-- A machine that never halts: tape `[BLANK]`, head 0,
`implicit_blank_halt=False`, looping via `loopSt`. -/
def loopM : StateMachine :=
  { env := fun _ => loopSt
    tape := [BLANK]
    implicit_blank_halt := false
    verbose := false
    current := some 0
    head := 0
    tape_begin := 0 }

/-- The state of `test_custom_action_with_large_move`:
`{TapeVar(0): (halt, TapeVar(1), ActionPrimitive("R3", lambda h: h + 3))}`
— a bare `ActionPrimitive` stored in the action slot. -/
def rawSt : State := ⟨"q0", [(sym0, (1, sym1, .rawPrim ⟨"R3", fun h => h + 3⟩))]⟩

/-- The same transition with the standard enum member `Action.R` instead. -/
def enumSt : State := ⟨"q0", [(sym0, (1, sym1, .enumMember rPrim))]⟩

/-- A state moving 50 cells right via a user-defined enum member whose
value is `ActionPrimitive("R50", lambda h: h + 50)`. -/
def r50St : State := ⟨"q0", [(sym0, (1, sym1, .enumMember ⟨"R50", fun h => h + 50⟩))]⟩

/-- Machine for the big-displacement growth witness: tape `[TapeVar(0)]`,
head 0, one `r50St` transition. -/
def w6M : StateMachine :=
  { env := fun _ => r50St
    tape := [sym0]
    implicit_blank_halt := true
    verbose := false
    current := some 0
    head := 0
    tape_begin := 0 }

/-- A state stepping right forever: `{TapeVar(0): (q0, TapeVar(0), Action.R)}`. -/
def rightSt : State := ⟨"q0", [(sym0, (0, sym0, .enumMember rPrim))]⟩

/-- Machine whose tape already has exactly 1,000,000 cells, head on the
rightmost cell, about to move right: a legitimate `__init__` input. -/
def bigM4 : StateMachine :=
  { env := fun _ => rightSt
    tape := List.replicate 1000000 sym0
    implicit_blank_halt := true
    verbose := false
    current := some 0
    head := 999999
    tape_begin := 0 }

/-- Machine whose tape has 1,000,002 cells, head on the rightmost cell,
about to move right: the next step must raise `MemoryError`. -/
def bigM10 : StateMachine :=
  { env := fun _ => rightSt
    tape := List.replicate 1000002 sym0
    implicit_blank_halt := true
    verbose := false
    current := some 0
    head := 1000001
    tape_begin := 0 }

/-- Machine whose tape has exactly 1,000,001 cells (within the actual
cap), head on the rightmost cell, about to move right: the step must abort
with `MemoryError` because 1,000,002 cells would be needed. -/
def bigM4b : StateMachine :=
  { env := fun _ => rightSt
    tape := List.replicate 1000001 sym0
    implicit_blank_halt := true
    verbose := false
    current := some 0
    head := 1000000
    tape_begin := 0 }

/-! ### Characterization of the growth loops -/

/-- Splicing one appended blank into the replicate block. -/
theorem append_blank_replicate (t : List TapeVar) (n : Nat) :
    (t ++ [BLANK]) ++ List.replicate n BLANK = t ++ List.replicate (n + 1) BLANK := by
  simp [List.append_assoc, List.replicate_succ]

/-- Length after appending one blank. -/
theorem length_append_blank (t : List TapeVar) :
    (t ++ [BLANK]).length = t.length + 1 := by
  simp

/-- If the safety cap is never hit, the right-growth loop appends exactly
its iteration count of blanks. -/
theorem growRightN_ok (n : Nat) (t : List TapeVar) (h : t.length + n ≤ 1000001) :
    growRightN t n = (t ++ List.replicate n BLANK, none) := by
  induction n generalizing t with
  | zero => simp [growRightN]
  | succ n ih =>
    rw [growRightN, if_neg (by omega)]
    have hlen : (t ++ [BLANK]).length + n ≤ 1000001 := by
      rw [length_append_blank]
      omega
    rw [ih (t ++ [BLANK]) hlen, append_blank_replicate]

/-- If the requested growth would push the length past 1,000,001 cells,
the right-growth loop raises `MemoryError` after some partial growth. -/
theorem growRightN_err (n : Nat) (t : List TapeVar) (h1 : 1 ≤ n)
    (h2 : 1000001 < t.length + n) :
    ∃ k, growRightN t n = (t ++ List.replicate k BLANK, some .memoryError) := by
  induction n generalizing t with
  | zero => omega
  | succ n ih =>
    rw [growRightN]
    by_cases hc : t.length > 1000000
    · rw [if_pos hc]
      exact ⟨0, by simp⟩
    · rw [if_neg hc]
      have hlen : 1000001 < (t ++ [BLANK]).length + n := by
        rw [length_append_blank]
        omega
      obtain ⟨k, hk⟩ := ih (t ++ [BLANK]) (by omega) hlen
      refine ⟨k + 1, ?_⟩
      rw [hk, append_blank_replicate]

/-- A raised growth-loop exception is always `MemoryError`. -/
theorem growRightN_err_mem (n : Nat) (t : List TapeVar) (e : PyErr)
    (h : (growRightN t n).2 = some e) : e = .memoryError := by
  induction n generalizing t with
  | zero => simp [growRightN] at h
  | succ n ih =>
    rw [growRightN] at h
    by_cases hc : t.length > 1000000
    · rw [if_pos hc] at h
      simp only [Option.some.injEq] at h
      exact h.symm
    · rw [if_neg hc] at h
      exact ih _ h

/-- If the right-growth loop returns without raising, its length stayed
within the (off-by-one) cap. -/
theorem growRightN_none_bound (n : Nat) (t : List TapeVar)
    (h : (growRightN t n).2 = none) : n = 0 ∨ t.length + n ≤ 1000001 := by
  induction n generalizing t with
  | zero => exact Or.inl rfl
  | succ n ih =>
    rw [growRightN] at h
    by_cases hc : t.length > 1000000
    · rw [if_pos hc] at h
      simp at h
    · rw [if_neg hc] at h
      rcases ih _ h with h0 | hb
      · subst h0
        right
        omega
      · right
        rw [length_append_blank] at hb
        omega

/-- If the right-growth loop returns without raising, it appended exactly
its iteration count of blanks. -/
theorem growRightN_none_shape (n : Nat) (t : List TapeVar)
    (h : (growRightN t n).2 = none) :
    (growRightN t n).1 = t ++ List.replicate n BLANK := by
  induction n generalizing t with
  | zero => simp [growRightN]
  | succ n ih =>
    rw [growRightN] at h ⊢
    by_cases hc : t.length > 1000000
    · rw [if_pos hc] at h
      simp at h
    · rw [if_neg hc] at h ⊢
      rw [ih _ h, append_blank_replicate]

/-- The function `growRight` succeeds exactly when covering the new head needs at most
`max len 1000001` cells, appending just enough blanks. -/
theorem growRight_ok (t : List TapeVar) (tb nh : Int)
    (h : nh - tb + 1 ≤ max (t.length : Int) 1000001) :
    growRight t tb nh =
      (t ++ List.replicate (nh - tb + 1 - (t.length : Int)).toNat BLANK, none) := by
  unfold growRight
  rcases Nat.eq_zero_or_pos (nh - tb + 1 - (t.length : Int)).toNat with h0 | hpos
  · rw [h0]
    simp [growRightN]
  · exact growRightN_ok _ t (by omega)

/-- The function `growRight` raises `MemoryError` when covering the new head would need
more than `max len 1000001` cells. -/
theorem growRight_err (t : List TapeVar) (tb nh : Int)
    (h : max (t.length : Int) 1000001 < nh - tb + 1) :
    ∃ k, growRight t tb nh = (t ++ List.replicate k BLANK, some .memoryError) := by
  unfold growRight
  exact growRightN_err _ t (by omega) (by omega)

/-- Successful `growRight` output: exactly the needed blanks appended. -/
theorem growRight_none (t t2 : List TapeVar) (tb nh : Int)
    (h : growRight t tb nh = (t2, none)) :
    t2 = t ++ List.replicate (nh - tb + 1 - (t.length : Int)).toNat BLANK ∧
      ((nh - tb + 1 - (t.length : Int)).toNat = 0 ∨
        t.length + (nh - tb + 1 - (t.length : Int)).toNat ≤ 1000001) := by
  have h2 : (growRightN t (nh - tb + 1 - (t.length : Int)).toNat).2 = none := by
    unfold growRight at h
    rw [h]
  refine ⟨?_, growRightN_none_bound _ t h2⟩
  have hs := growRightN_none_shape _ t h2
  unfold growRight at h
  rw [h] at hs
  exact hs

/-- Whatever happens, the right-growth loop only appends blanks. -/
theorem growRightN_shape (n : Nat) (t : List TapeVar) :
    ∃ k, (growRightN t n).1 = t ++ List.replicate k BLANK := by
  induction n generalizing t with
  | zero => exact ⟨0, by simp [growRightN]⟩
  | succ n ih =>
    rw [growRightN]
    by_cases hc : t.length > 1000000
    · rw [if_pos hc]
      exact ⟨0, by simp⟩
    · rw [if_neg hc]
      obtain ⟨k, hk⟩ := ih (t ++ [BLANK])
      refine ⟨k + 1, ?_⟩
      rw [hk, append_blank_replicate]

/-- Failing `growRight` output: `MemoryError`, with some partial blanks
already appended. -/
theorem growRight_some (t t2 : List TapeVar) (tb nh : Int) (e : PyErr)
    (h : growRight t tb nh = (t2, some e)) :
    e = .memoryError ∧ ∃ k, t2 = t ++ List.replicate k BLANK := by
  have h2 : (growRightN t (nh - tb + 1 - (t.length : Int)).toNat).2 = some e := by
    unfold growRight at h
    rw [h]
  refine ⟨growRightN_err_mem _ t e h2, ?_⟩
  obtain ⟨k, hk⟩ := growRightN_shape (nh - tb + 1 - (t.length : Int)).toNat t
  unfold growRight at h
  rw [h] at hk
  exact ⟨k, hk⟩

/-- Splicing one prepended blank into the replicate block. -/
theorem replicate_cons_blank (t : List TapeVar) (n : Nat) :
    List.replicate n BLANK ++ (BLANK :: t) = List.replicate (n + 1) BLANK ++ t := by
  rw [List.replicate_succ']
  simp [List.append_assoc]

/-- If the safety cap is never hit, the left-growth loop prepends exactly
its iteration count of blanks and decrements `tape_begin` once each. -/
theorem growLeftN_ok (n : Nat) (t : List TapeVar) (tb : Int)
    (h : t.length + n ≤ 1000001) :
    growLeftN t tb n = (List.replicate n BLANK ++ t, tb - n, none) := by
  induction n generalizing t tb with
  | zero => simp [growLeftN]
  | succ n ih =>
    rw [growLeftN, if_neg (by omega)]
    have hlen : (BLANK :: t).length + n ≤ 1000001 := by
      rw [List.length_cons]
      omega
    rw [ih (BLANK :: t) (tb - 1) hlen, replicate_cons_blank]
    refine congrArg _ ?_
    refine congrArg (fun x => (x, none)) ?_
    push_cast
    ring

/-- If the requested growth would push the length past 1,000,001 cells,
the left-growth loop raises `MemoryError` after some partial growth. -/
theorem growLeftN_err (n : Nat) (t : List TapeVar) (tb : Int) (h1 : 1 ≤ n)
    (h2 : 1000001 < t.length + n) :
    ∃ j, growLeftN t tb n =
      (List.replicate j BLANK ++ t, tb - j, some .memoryError) := by
  induction n generalizing t tb with
  | zero => omega
  | succ n ih =>
    rw [growLeftN]
    by_cases hc : t.length > 1000000
    · rw [if_pos hc]
      exact ⟨0, by simp⟩
    · rw [if_neg hc]
      have hlen : 1000001 < (BLANK :: t).length + n := by
        rw [List.length_cons]
        omega
      obtain ⟨j, hj⟩ := ih (BLANK :: t) (tb - 1) (by omega) hlen
      refine ⟨j + 1, ?_⟩
      rw [hj, replicate_cons_blank]
      refine congrArg _ ?_
      refine congrArg (fun x => (x, some PyErr.memoryError)) ?_
      push_cast
      ring

/-- A raised left-growth exception is always `MemoryError`. -/
theorem growLeftN_err_mem (n : Nat) (t : List TapeVar) (tb : Int) (e : PyErr)
    (h : (growLeftN t tb n).2.2 = some e) : e = .memoryError := by
  induction n generalizing t tb with
  | zero => simp [growLeftN] at h
  | succ n ih =>
    rw [growLeftN] at h
    by_cases hc : t.length > 1000000
    · rw [if_pos hc] at h
      simp only [Option.some.injEq] at h
      exact h.symm
    · rw [if_neg hc] at h
      exact ih _ _ h

/-- If the left-growth loop returns without raising, its length stayed
within the (off-by-one) cap. -/
theorem growLeftN_none_bound (n : Nat) (t : List TapeVar) (tb : Int)
    (h : (growLeftN t tb n).2.2 = none) : n = 0 ∨ t.length + n ≤ 1000001 := by
  induction n generalizing t tb with
  | zero => exact Or.inl rfl
  | succ n ih =>
    rw [growLeftN] at h
    by_cases hc : t.length > 1000000
    · rw [if_pos hc] at h
      simp at h
    · rw [if_neg hc] at h
      rcases ih _ _ h with h0 | hb
      · subst h0
        right
        omega
      · right
        rw [List.length_cons] at hb
        omega

/-- If the left-growth loop returns without raising, it prepended exactly
its iteration count of blanks and moved `tape_begin` down by that count. -/
theorem growLeftN_none_shape (n : Nat) (t : List TapeVar) (tb : Int)
    (h : (growLeftN t tb n).2.2 = none) :
    growLeftN t tb n = (List.replicate n BLANK ++ t, tb - n, none) := by
  induction n generalizing t tb with
  | zero => simp [growLeftN]
  | succ n ih =>
    rw [growLeftN] at h ⊢
    by_cases hc : t.length > 1000000
    · rw [if_pos hc] at h
      simp at h
    · rw [if_neg hc] at h ⊢
      rw [ih _ _ h, replicate_cons_blank]
      refine congrArg _ ?_
      refine congrArg (fun x => (x, none)) ?_
      push_cast
      ring

/-- Whatever happens, the left-growth loop only prepends blanks, moving
`tape_begin` down once per prepended cell. -/
theorem growLeftN_shape (n : Nat) (t : List TapeVar) (tb : Int) :
    ∃ j, (growLeftN t tb n).1 = List.replicate j BLANK ++ t ∧
      (growLeftN t tb n).2.1 = tb - j := by
  induction n generalizing t tb with
  | zero => exact ⟨0, by simp [growLeftN]⟩
  | succ n ih =>
    rw [growLeftN]
    by_cases hc : t.length > 1000000
    · rw [if_pos hc]
      exact ⟨0, by simp⟩
    · rw [if_neg hc]
      obtain ⟨j, hj1, hj2⟩ := ih (BLANK :: t) (tb - 1)
      refine ⟨j + 1, ?_, ?_⟩
      · rw [hj1, replicate_cons_blank]
      · rw [hj2]
        push_cast
        ring

/-- The function `growLeft` succeeds when no growth is needed or the needed total stays
within the off-by-one cap. -/
theorem growLeft_ok (t : List TapeVar) (tb nh : Int)
    (h : tb - nh ≤ 0 ∨ (t.length : Int) + (tb - nh) ≤ 1000001) :
    growLeft t tb nh =
      (List.replicate (tb - nh).toNat BLANK ++ t,
        tb - ((tb - nh).toNat : Int), none) := by
  unfold growLeft
  rcases Nat.eq_zero_or_pos (tb - nh).toNat with h0 | hpos
  · rw [h0]
    simp [growLeftN]
  · exact growLeftN_ok _ t tb (by omega)

/-- The function `growLeft` raises `MemoryError` when the needed total would exceed the
off-by-one cap. -/
theorem growLeft_err (t : List TapeVar) (tb nh : Int) (h1 : 1 ≤ tb - nh)
    (h2 : 1000001 < (t.length : Int) + (tb - nh)) :
    ∃ j, growLeft t tb nh =
      (List.replicate j BLANK ++ t, tb - j, some .memoryError) := by
  unfold growLeft
  exact growLeftN_err _ t tb (by omega) (by omega)

/-- Successful `growLeft` output: exactly the needed blanks prepended. -/
theorem growLeft_none (t t3 : List TapeVar) (tb tb3 nh : Int)
    (h : growLeft t tb nh = (t3, tb3, none)) :
    t3 = List.replicate (tb - nh).toNat BLANK ++ t ∧
      tb3 = tb - ((tb - nh).toNat : Int) ∧
      ((tb - nh).toNat = 0 ∨ t.length + (tb - nh).toNat ≤ 1000001) := by
  have h2 : (growLeftN t tb (tb - nh).toNat).2.2 = none := by
    unfold growLeft at h
    rw [h]
  have hs := growLeftN_none_shape _ t tb h2
  unfold growLeft at h
  rw [h] at hs
  have hb := growLeftN_none_bound _ t tb h2
  injection hs with hs1 hs2
  injection hs2 with hs2 _
  exact ⟨hs1, hs2, hb⟩

/-- Failing `growLeft` output: `MemoryError`, with some partial blanks
already prepended and `tape_begin` moved down accordingly. -/
theorem growLeft_some (t t3 : List TapeVar) (tb tb3 nh : Int) (e : PyErr)
    (h : growLeft t tb nh = (t3, tb3, some e)) :
    e = .memoryError ∧ ∃ j, t3 = List.replicate j BLANK ++ t ∧ tb3 = tb - j := by
  have h2 : (growLeftN t tb (tb - nh).toNat).2.2 = some e := by
    unfold growLeft at h
    rw [h]
  refine ⟨growLeftN_err_mem _ t tb e h2, ?_⟩
  obtain ⟨j, hj1, hj2⟩ := growLeftN_shape (tb - nh).toNat t tb
  unfold growLeft at h
  rw [h] at hj1 hj2
  exact ⟨j, hj1, hj2⟩

/-! ### Indexing and single-step lemmas -/

/-- A nonnegative Python index is not adjusted. -/
theorem pyIndex_of_nonneg (n : Nat) (i : Int) (h : 0 ≤ i) : pyIndex n i = i := by
  unfold pyIndex
  rw [if_neg (by omega)]

/-- A successful read means the adjusted index was in range. -/
theorem pyGet_ok_inv (l : List TapeVar) (i : Int) (tv : TapeVar)
    (h : pyGet l i = .ok tv) :
    0 ≤ pyIndex l.length i ∧ pyIndex l.length i < (l.length : Int) := by
  unfold pyGet at h
  by_cases hc : 0 ≤ pyIndex l.length i ∧ pyIndex l.length i < (l.length : Int)
  · exact hc
  · rw [dif_neg hc] at h
    exact Except.noConfusion h

/-- Writing at an index that was just read successfully also succeeds and
produces `List.set` at the adjusted index. -/
theorem pySet_of_pyGet (l : List TapeVar) (i : Int) (tv v : TapeVar)
    (h : pyGet l i = .ok tv) :
    pySet l i v = .ok (l.set (pyIndex l.length i).toNat v) := by
  unfold pySet
  rw [if_pos (pyGet_ok_inv l i tv h)]

/-- Reading any valid nonnegative index of a constant tape. -/
theorem pyGet_replicate (n : Nat) (a : TapeVar) (i : Int)
    (h1 : 0 ≤ i) (h2 : i < (n : Int)) :
    pyGet (List.replicate n a) i = .ok a := by
  have hidx : pyIndex (List.replicate n a).length i = i := by
    unfold pyIndex
    rw [if_neg (by omega)]
  unfold pyGet
  split
  · simp
  · next hcond =>
    exfalso
    apply hcond
    rw [hidx, List.length_replicate]
    exact ⟨h1, h2⟩

/-- A continue step whose growth loops both succeed. -/
theorem step_continue_ok (m : StateMachine) (sid : StateId) (tv : TapeVar)
    (ns : StateId) (wtv : TapeVar) (nh : Int) (tape1 t2 t3 : List TapeVar)
    (tb3 : Int)
    (hc : m.current = some sid)
    (hg : pyGet m.tape (m.head - m.tape_begin) = .ok tv)
    (hu : (m.env sid).update tv m.head m.implicit_blank_halt =
      .ok (some ns, wtv, nh))
    (hs : pySet m.tape (m.head - m.tape_begin) wtv = .ok tape1)
    (hr : growRight tape1 m.tape_begin nh = (t2, none))
    (hl : growLeft t2 m.tape_begin nh = (t3, tb3, none)) :
    step m = ({ m with tape := t3, tape_begin := tb3, head := nh, current := some ns }, .ok true) := by
  unfold step
  simp only [hc, hg, hu, hs, hr, hl]

/-- A continue step whose right-growth loop raises. -/
theorem step_continue_right_err (m : StateMachine) (sid : StateId)
    (tv : TapeVar) (ns : StateId) (wtv : TapeVar) (nh : Int)
    (tape1 t2 : List TapeVar) (e : PyErr)
    (hc : m.current = some sid)
    (hg : pyGet m.tape (m.head - m.tape_begin) = .ok tv)
    (hu : (m.env sid).update tv m.head m.implicit_blank_halt =
      .ok (some ns, wtv, nh))
    (hs : pySet m.tape (m.head - m.tape_begin) wtv = .ok tape1)
    (hr : growRight tape1 m.tape_begin nh = (t2, some e)) :
    step m = ({ m with tape := t2 }, .error e) := by
  unfold step
  simp only [hc, hg, hu, hs, hr]

/-- A continue step whose left-growth loop raises. -/
theorem step_continue_left_err (m : StateMachine) (sid : StateId)
    (tv : TapeVar) (ns : StateId) (wtv : TapeVar) (nh : Int)
    (tape1 t2 t3 : List TapeVar) (tb3 : Int) (e : PyErr)
    (hc : m.current = some sid)
    (hg : pyGet m.tape (m.head - m.tape_begin) = .ok tv)
    (hu : (m.env sid).update tv m.head m.implicit_blank_halt =
      .ok (some ns, wtv, nh))
    (hs : pySet m.tape (m.head - m.tape_begin) wtv = .ok tape1)
    (hr : growRight tape1 m.tape_begin nh = (t2, none))
    (hl : growLeft t2 m.tape_begin nh = (t3, tb3, some e)) :
    step m = ({ m with tape := t3, tape_begin := tb3 }, .error e) := by
  unfold step
  simp only [hc, hg, hu, hs, hr, hl]

/-- A step that resolves no transition returns `False` and mutates nothing. -/
theorem step_halt_eq (m : StateMachine) (sid : StateId) (tv wtv : TapeVar)
    (nh : Int)
    (hc : m.current = some sid)
    (hg : pyGet m.tape (m.head - m.tape_begin) = .ok tv)
    (hu : (m.env sid).update tv m.head m.implicit_blank_halt =
      .ok (none, wtv, nh)) :
    step m = (m, .ok false) := by
  unfold step
  simp only [hc, hg, hu]

/-- A failing read raises `IndexError`. -/
theorem pyGet_err (l : List TapeVar) (i : Int) (e : PyErr)
    (h : pyGet l i = .error e) : e = .indexError := by
  unfold pyGet at h
  split at h
  · exact Except.noConfusion h
  · injection h with h1
    exact h1.symm

/-- A failing write raises `IndexError`. -/
theorem pySet_err (l : List TapeVar) (i : Int) (v : TapeVar) (e : PyErr)
    (h : pySet l i v = .error e) : e = .indexError := by
  unfold pySet at h
  split at h
  · exact Except.noConfusion h
  · injection h with h1
    exact h1.symm

/-- A failing transition resolution raises `AttributeError` (the `.value`
access on a bare `ActionPrimitive`). -/
theorem update_err (s : State) (tv : TapeVar) (head : Int) (ibh : Bool)
    (e : PyErr) (h : s.update tv head ibh = .error e) : e = .attributeError := by
  unfold State.update at h
  split at h
  · exact Except.noConfusion h
  · split at h
    · exact Except.noConfusion h
    · split at h
      · exact Except.noConfusion h
      · injection h with h1
        exact h1.symm

/-- Full case analysis of a `step` call: either nothing was mutated and the
step did not continue (an early error or a normal halt), or the machine
resolved a continue transition and the outcome is determined by the two
growth loops. -/
theorem step_inv (m mp : StateMachine) (r : Except PyErr Bool)
    (h : step m = (mp, r)) :
    (mp = m ∧ r ≠ .ok true ∧ r ≠ .error .memoryError) ∨
    (∃ sid tv ns wtv nh,
      m.current = some sid ∧
      pyGet m.tape (m.head - m.tape_begin) = .ok tv ∧
      (m.env sid).update tv m.head m.implicit_blank_halt =
        .ok (some ns, wtv, nh) ∧
      ((∃ t2, growRight (m.tape.set (pyIndex m.tape.length (m.head - m.tape_begin)).toNat wtv) m.tape_begin nh = (t2, some .memoryError) ∧
          mp = { m with tape := t2 } ∧ r = .error .memoryError) ∨
       (∃ t2 t3 tb3, growRight (m.tape.set (pyIndex m.tape.length (m.head - m.tape_begin)).toNat wtv) m.tape_begin nh = (t2, none) ∧
          growLeft t2 m.tape_begin nh = (t3, tb3, some .memoryError) ∧
          mp = { m with tape := t3, tape_begin := tb3 } ∧ r = .error .memoryError) ∨
       (∃ t2 t3 tb3, growRight (m.tape.set (pyIndex m.tape.length (m.head - m.tape_begin)).toNat wtv) m.tape_begin nh = (t2, none) ∧
          growLeft t2 m.tape_begin nh = (t3, tb3, none) ∧
          mp = { m with tape := t3, tape_begin := tb3, head := nh, current := some ns } ∧ r = .ok true))) := by
  unfold step at h
  rcases hc : m.current with _ | sid
  · simp only [hc] at h
    injection h with h1 h2
    subst h2
    exact Or.inl ⟨h1.symm, by simp, by simp⟩
  · simp only [hc] at h
    rcases hg : pyGet m.tape (m.head - m.tape_begin) with e | tv
    · simp only [hg] at h
      injection h with h1 h2
      subst h2
      rw [pyGet_err _ _ _ hg]
      exact Or.inl ⟨h1.symm, by simp, by simp⟩
    · simp only [hg] at h
      rcases hu : (m.env sid).update tv m.head m.implicit_blank_halt with
        e | ⟨ns, wtv, nh⟩
      · simp only [hu] at h
        injection h with h1 h2
        subst h2
        rw [update_err _ _ _ _ _ hu]
        exact Or.inl ⟨h1.symm, by simp, by simp⟩
      · rcases ns with _ | ns
        · simp only [hu] at h
          injection h with h1 h2
          subst h2
          exact Or.inl ⟨h1.symm, by simp, by simp⟩
        · have hs := pySet_of_pyGet m.tape (m.head - m.tape_begin) tv wtv hg
          simp only [hu, hs] at h
          rcases hr : growRight (m.tape.set (pyIndex m.tape.length (m.head - m.tape_begin)).toNat wtv) m.tape_begin nh with ⟨t2, _ | e2⟩
          · simp only [hr] at h
            rcases hl : growLeft t2 m.tape_begin nh with ⟨t3, tb3, _ | e3⟩
            · simp only [hl] at h
              injection h with h1 h2
              subst h2
              exact Or.inr ⟨sid, tv, ns, wtv, nh, rfl, rfl, hu,
                Or.inr (Or.inr ⟨t2, t3, tb3, hr, hl, h1.symm, rfl⟩)⟩
            · simp only [hl] at h
              injection h with h1 h2
              subst h2
              obtain ⟨he3, -⟩ := growLeft_some t2 t3 m.tape_begin tb3 nh e3 hl
              subst he3
              exact Or.inr ⟨sid, tv, ns, wtv, nh, rfl, rfl, hu,
                Or.inr (Or.inl ⟨t2, t3, tb3, hr, hl, h1.symm, rfl⟩)⟩
          · simp only [hr] at h
            injection h with h1 h2
            subst h2
            obtain ⟨he2, -⟩ := growRight_some _ t2 m.tape_begin nh e2 hr
            subst he2
            exact Or.inr ⟨sid, tv, ns, wtv, nh, rfl, rfl, hu,
              Or.inl ⟨t2, hr, h1.symm, rfl⟩⟩

/-- The `run` loop of the source agrees with the reference iterator on the
final machine and the propagated outcome. -/
theorem runLoop_iterStep (n : Nat) (m : StateMachine) :
    ((runLoop m n).1, (runLoop m n).2.1) = iterStep m n := by
  induction n generalizing m with
  | zero => rfl
  | succ n ih =>
    rw [runLoop, iterStep]
    rcases hs : step m with ⟨m', r⟩
    rcases r with e | b
    · rfl
    · rcases b with _ | _
      · rfl
      · rcases hrl : runLoop m' n with ⟨m2, r2, k2⟩
        have hthis := ih m'
        rw [hrl] at hthis
        simp only [hrl]
        exact hthis

/-! ### Claim theorems -/

/-- Claim C1: the spec (and the test suite of the repository, in
`test_machine_halts_properly`) says that when the transition lookup fails
`StateMachine.step` returns `False` **and sets `current` to `None`**.  The
code does return `False`, but it leaves `current` untouched: on the
failing input of that test (state `q0` with no transitions, tape
`[TapeVar(0)]`, head 0) the current state of the machine after the halting step
is still `q0`, not `None`. -/
theorem step_halt_keeps_current :
    (step haltM).2 = .ok false ∧ (step haltM).1.current = some 0 ∧
      (step haltM).1.current ≠ none := by
  refine ⟨rfl, rfl, ?_⟩
  intro hx
  exact Option.noConfusion ((rfl : (step haltM).1.current = some 0).symm.trans hx)

/-- Claim C3: the spec (and the repository test
`test_custom_action_with_large_move` and `example_custom_action.py`) says
custom actions — bare `ActionPrimitive` values — are handled exactly like
the standard enum actions.  In the code `State.update` evaluates
`action.value.perform(head)`, and a bare `ActionPrimitive` has no `.value`
attribute: on the failing input
`{TapeVar(0): (halt, TapeVar(1), ActionPrimitive("R3", λh. h+3))}` the
update raises `AttributeError`, while the same transition through an enum
member returns the Continue outcome. -/
theorem update_raw_action_primitive_raises :
    State.update rawSt sym0 0 true = .error .attributeError ∧
      State.update enumSt sym0 0 true = .ok (some 1, sym1, 1) :=
  ⟨rfl, rfl⟩

/-- Claim C5: the spec says `run(max_steps=0)` performs zero steps and
returns normally with the machine unchanged.  The code performs zero steps
and leaves the machine unchanged, but then evaluates
`print(f"Machine halted after \x7b_ + 1\x7d steps.")` with the loop
variable `_` never bound, raising `UnboundLocalError` instead of
returning. -/
theorem run_zero_steps_raises :
    run haltM 0 = (haltM, .error .nameError) := rfl

/-- Claim C2 (counterexample): `StateMachine.run` returns only
`(self.tape, self.current)`.  On the looping machine `loopM` the calls
`run(3)` and `run(5)` execute 3 and 5 steps respectively but return
identical values, so the count of steps actually executed is not part of
the return value and the outcome cannot be recovered from it. -/
theorem run_same_return_different_step_counts :
    (run loopM 3).2 = (run loopM 5).2 ∧ stepsTaken loopM 3 = 3 ∧
      stepsTaken loopM 5 = 5 ∧ (run loopM 3).2 = .ok ([BLANK], some 0) :=
  ⟨rfl, rfl, rfl, rfl⟩

/-- Claim C2 (amended): for `max_steps ≥ 1`, `StateMachine.run` returns a
pair — the final tape and the last active state of the machine obtained by
iterating `step` until the first halt, exception, or budget exhaustion —
and nothing else: no step count and no flag distinguishing a clean halt
from budget exhaustion. -/
theorem run_returns_tape_and_state_pair (m : StateMachine) (n : Nat)
    (h : 1 ≤ n) :
    run m n = (match iterStep m n with
      | (mf, .ok _) => (mf, .ok (mf.tape, mf.current))
      | (mf, .error e) => (mf, .error e)) := by
  have hit := runLoop_iterStep n m
  unfold run
  rcases hrl : runLoop m n with ⟨m2, r, k⟩
  rw [hrl] at hit
  rcases r with e | u
  · rw [← hit]
  · rw [← hit]
    show (if n = 0 then (m2, Except.error PyErr.nameError)
        else (m2, Except.ok (m2.tape, m2.current))) =
      (m2, Except.ok (m2.tape, m2.current))
    rw [if_neg (by omega)]

/-- Witness for the amended C2 at a concrete machine and budget. -/
theorem run_returns_tape_and_state_pair_witness :
    run loopM 2 = (match iterStep loopM 2 with
      | (mf, .ok _) => (mf, .ok (mf.tape, mf.current))
      | (mf, .error e) => (mf, .error e)) :=
  run_returns_tape_and_state_pair loopM 2 (by decide)

/-- Claim C7: whenever the symbol under the head has no matching entry in
the transition table — whatever the symbol, head position and
`implicit_blank_halt` flag — `State.update` returns the Halt outcome
`(None, symbol, head)` with symbol and head unchanged, raising nothing. -/
theorem update_missing_transition_halts (s : State) (tv : TapeVar)
    (head : Int) (ibh : Bool) (h : tlookup s.transitions tv = none) :
    s.update tv head ibh = .ok (none, tv, head) := by
  unfold State.update
  split
  · rfl
  · rw [h]

/-- Witness for C7: a state with an empty table, a non-blank symbol, head
5, `implicit_blank_halt = true`. -/
theorem update_missing_transition_halts_witness :
    tlookup haltSt.transitions sym0 = none ∧
      State.update haltSt sym0 5 true = .ok (none, sym0, 5) :=
  ⟨rfl, update_missing_transition_halts haltSt sym0 5 true rfl⟩

/-- Claim C8: whenever `StateMachine.step` returns `False` (halt), the
tape, the head and `tape_begin` are exactly their pre-call values — no
write and no growth happen on the halt path. -/
theorem step_halt_frame (m mp : StateMachine)
    (h : step m = (mp, .ok false)) :
    mp.tape = m.tape ∧ mp.head = m.head ∧ mp.tape_begin = m.tape_begin := by
  rcases step_inv m mp (.ok false) h with ⟨h1, -, -⟩ |
    ⟨sid, tv, ns, wtv, nh, -, -, -, hca⟩
  · subst h1
    exact ⟨rfl, rfl, rfl⟩
  · rcases hca with ⟨t2, -, -, habs⟩ | ⟨t2, t3, tb3, -, -, -, habs⟩ |
      ⟨t2, t3, tb3, -, -, -, habs⟩ <;> exact absurd habs (by simp)

/-- Witness for C8 on a concrete halting step. -/
theorem step_halt_frame_witness :
    (step haltM).1.tape = haltM.tape ∧ (step haltM).1.head = haltM.head ∧
      (step haltM).1.tape_begin = haltM.tape_begin :=
  step_halt_frame haltM (step haltM).1 rfl

/-- Claim C9: the head always addresses an existing tape cell
(`0 ≤ head - tape_begin < len tape`) and `tape_begin ≤ 0`; this holds
after `__init__` and is preserved by every `step` call that returns
normally, and the tape length never decreases across any `step` call,
normal or raising. -/
theorem machine_invariant :
    (∀ env start input_tape start_point verbose ibh m,
        mkStateMachine env start input_tape start_point verbose ibh = .ok m →
        Inv m) ∧
      (∀ m mp r, Inv m → step m = (mp, .ok r) →
        Inv mp ∧ m.tape.length ≤ mp.tape.length) ∧
      (∀ m mp r, step m = (mp, r) → m.tape.length ≤ mp.tape.length) := by
  refine ⟨?_, ?_, ?_⟩
  · intro env start input_tape start_point verbose ibh m hmk
    unfold mkStateMachine at hmk
    split at hmk
    · next hcond =>
      injection hmk with hm
      subst hm
      refine ⟨?_, ?_, ?_⟩
      · show 0 ≤ start_point - 0
        omega
      · show start_point - 0 < (input_tape.length : Int)
        omega
      · show (0 : Int) ≤ 0
        omega
    · exact Except.noConfusion hmk
  · intro m mp r hInv hstep
    rcases step_inv m mp (.ok r) hstep with ⟨h1, -, -⟩ |
      ⟨sid, tv, ns, wtv, nh, hc, hg, hu, hca⟩
    · subst h1
      exact ⟨hInv, le_refl _⟩
    · rcases hca with ⟨t2, -, -, habs⟩ | ⟨t2, t3, tb3, -, -, -, habs⟩ |
        ⟨t2, t3, tb3, hr, hl, hmp, -⟩
      · exact absurd habs (by simp)
      · exact absurd habs (by simp)
      · obtain ⟨ht2, hb2⟩ := growRight_none _ t2 m.tape_begin nh hr
        obtain ⟨ht3, htb3, hb3⟩ := growLeft_none t2 t3 m.tape_begin tb3 nh hl
        obtain ⟨hI1, hI2, hI3⟩ := hInv
        have hlen2 : t2.length =
            m.tape.length + (nh - m.tape_begin + 1 - (m.tape.length : Int)).toNat := by
          rw [ht2]
          simp [List.length_set]
        have hlen3 : t3.length = (m.tape_begin - nh).toNat + t2.length := by
          rw [ht3]
          simp
        subst hmp
        refine ⟨⟨?_, ?_, ?_⟩, ?_⟩
        · show 0 ≤ nh - tb3
          omega
        · show nh - tb3 < (t3.length : Int)
          omega
        · show tb3 ≤ 0
          omega
        · show m.tape.length ≤ t3.length
          omega
  · intro m mp r hstep
    rcases step_inv m mp r hstep with ⟨h1, -, -⟩ |
      ⟨sid, tv, ns, wtv, nh, hc, hg, hu, hca⟩
    · subst h1
      exact le_refl _
    · rcases hca with ⟨t2, hr, hmp, -⟩ | ⟨t2, t3, tb3, hr, hl, hmp, -⟩ |
        ⟨t2, t3, tb3, hr, hl, hmp, -⟩
      · obtain ⟨-, k, hk⟩ := growRight_some _ t2 m.tape_begin nh _ hr
        subst hmp
        show m.tape.length ≤ t2.length
        rw [hk]
        simp [List.length_set]
      · obtain ⟨ht2, -⟩ := growRight_none _ t2 m.tape_begin nh hr
        obtain ⟨-, j, hj, -⟩ := growLeft_some t2 t3 m.tape_begin tb3 nh _ hl
        subst hmp
        show m.tape.length ≤ t3.length
        rw [hj, ht2]
        simp [List.length_set]
        omega
      · obtain ⟨ht2, -⟩ := growRight_none _ t2 m.tape_begin nh hr
        obtain ⟨ht3, -, -⟩ := growLeft_none t2 t3 m.tape_begin tb3 nh hl
        subst hmp
        show m.tape.length ≤ t3.length
        rw [ht3, ht2]
        simp [List.length_set]
        omega

/-- Witness for C9: the invariant holds for a freshly built machine and is
preserved (with non-decreasing tape) across its halting step. -/
theorem machine_invariant_witness :
    Inv haltM ∧ Inv (step haltM).1 ∧
      haltM.tape.length ≤ (step haltM).1.tape.length := by
  have hA := machine_invariant.1 (fun _ => haltSt) 0 [sym0] 0 false true
    haltM rfl
  refine ⟨hA, ?_, ?_⟩
  · exact (machine_invariant.2.1 haltM (step haltM).1 false hA rfl).1
  · exact machine_invariant.2.2 haltM (step haltM).1 (.ok false) rfl

/-- Claim C6: on every Continue step with new head `nh` that does not hit
the resource cap, `step` writes the symbol at the pre-move cell, appends
exactly `(nh - tape_begin + 1 - len).toNat` blanks on the right and
prepends exactly `(tape_begin - nh).toNat` blanks on the left — growth is
exactly sufficient (every new cell BLANK, no over-allocation) and
afterwards `0 ≤ nh - tape_begin < len`. -/
theorem step_growth_exact (m : StateMachine) (sid : StateId)
    (tv : TapeVar) (ns : StateId) (wtv : TapeVar) (nh : Int)
    (hc : m.current = some sid)
    (hg : pyGet m.tape (m.head - m.tape_begin) = .ok tv)
    (hu : (m.env sid).update tv m.head m.implicit_blank_halt =
      .ok (some ns, wtv, nh))
    (hnomem : (step m).2 ≠ .error .memoryError) :
    (step m).2 = .ok true ∧
    (step m).1.tape =
      List.replicate (m.tape_begin - nh).toNat BLANK ++
        m.tape.set (pyIndex m.tape.length (m.head - m.tape_begin)).toNat wtv ++
        List.replicate (nh - m.tape_begin + 1 - (m.tape.length : Int)).toNat BLANK ∧
    (step m).1.tape_begin = m.tape_begin - ((m.tape_begin - nh).toNat : Int) ∧
    (step m).1.head = nh ∧
    0 ≤ nh - (step m).1.tape_begin ∧
    nh - (step m).1.tape_begin < ((step m).1.tape.length : Int) := by
  have hs := pySet_of_pyGet m.tape (m.head - m.tape_begin) tv wtv hg
  have hlen1 : (m.tape.set (pyIndex m.tape.length (m.head - m.tape_begin)).toNat wtv).length = m.tape.length :=
    List.length_set _ _ _
  obtain ⟨hg1, hg2⟩ := pyGet_ok_inv m.tape (m.head - m.tape_begin) tv hg
  rcases hr : growRight (m.tape.set (pyIndex m.tape.length (m.head - m.tape_begin)).toNat wtv) m.tape_begin nh with ⟨t2, _ | e2⟩
  · rcases hl : growLeft t2 m.tape_begin nh with ⟨t3, tb3, _ | e3⟩
    · have hstep := step_continue_ok m sid tv ns wtv nh _ t2 t3 tb3 hc hg hu hs hr hl
      obtain ⟨ht2, hb2⟩ := growRight_none _ t2 m.tape_begin nh hr
      obtain ⟨ht3, htb3, hb3⟩ := growLeft_none t2 t3 m.tape_begin tb3 nh hl
      rw [hlen1] at ht2
      have hlen2 : t2.length =
          m.tape.length + (nh - m.tape_begin + 1 - (m.tape.length : Int)).toNat := by
        rw [ht2]
        simp
      have hlen3 : t3.length = (m.tape_begin - nh).toNat + t2.length := by
        rw [ht3]
        simp
      refine ⟨by rw [hstep], ?_, ?_, by rw [hstep], ?_, ?_⟩
      · rw [hstep]
        show t3 = _
        rw [ht3, ht2, List.append_assoc]
      · rw [hstep]
        show tb3 = _
        exact htb3
      · rw [hstep]
        show 0 ≤ nh - tb3
        omega
      · rw [hstep]
        show nh - tb3 < (t3.length : Int)
        omega
    · obtain ⟨he3, -⟩ := growLeft_some t2 t3 m.tape_begin tb3 nh _ hl
      subst he3
      have hstep := step_continue_left_err m sid tv ns wtv nh _ t2 t3 tb3 _
        hc hg hu hs hr hl
      rw [hstep] at hnomem
      exact absurd rfl hnomem
  · obtain ⟨he2, -⟩ := growRight_some _ t2 m.tape_begin nh _ hr
    subst he2
    have hstep := step_continue_right_err m sid tv ns wtv nh _ t2 _
      hc hg hu hs hr
    rw [hstep] at hnomem
    exact absurd rfl hnomem

/-- Witness for C6: a user-defined enum action jumping 50 cells right from
a one-cell tape appends exactly 50 blanks. -/
theorem step_growth_exact_witness :
    (step w6M).2 = .ok true ∧
    (step w6M).1.tape =
      List.replicate (w6M.tape_begin - 50).toNat BLANK ++
        w6M.tape.set (pyIndex w6M.tape.length (w6M.head - w6M.tape_begin)).toNat sym1 ++
        List.replicate (50 - w6M.tape_begin + 1 - (w6M.tape.length : Int)).toNat BLANK ∧
    (step w6M).1.tape_begin = w6M.tape_begin - ((w6M.tape_begin - 50).toNat : Int) ∧
    (step w6M).1.head = 50 ∧
    0 ≤ 50 - (step w6M).1.tape_begin ∧
    50 - (step w6M).1.tape_begin < ((step w6M).1.tape.length : Int) := by
  refine step_growth_exact w6M 0 sym0 1 sym1 50 rfl rfl rfl ?_
  intro hx
  rw [show (step w6M).2 = Except.ok true from rfl] at hx
  exact Except.noConfusion hx

/-- Claim C4 (counterexample): the cap check `len(tape) > 10**6` runs
before each append, so growth that needs exactly 1,000,001 cells succeeds.
On a legitimate machine whose input tape has exactly 1,000,000 cells with
the head on the last cell, one `R` step grows the tape to 1,000,001 cells
and returns `True` — no `MemoryError` — refuting "the tape length never
exceeds 1,000,000 cells". -/
theorem step_tape_can_exceed_cap :
    (step bigM4).2 = .ok true ∧ (step bigM4).1.tape.length = 1000001 := by
  have hg : pyGet bigM4.tape (bigM4.head - bigM4.tape_begin) = .ok sym0 :=
    pyGet_replicate 1000000 sym0 (bigM4.head - bigM4.tape_begin)
      (by decide) (by decide)
  have hu : (bigM4.env 0).update sym0 bigM4.head bigM4.implicit_blank_halt =
      .ok (some 0, sym0, 1000000) := rfl
  have hs := pySet_of_pyGet bigM4.tape (bigM4.head - bigM4.tape_begin)
    sym0 sym0 hg
  have hlen1 : (bigM4.tape.set
      (pyIndex bigM4.tape.length (bigM4.head - bigM4.tape_begin)).toNat
      sym0).length = 1000000 := by
    rw [List.length_set]
    show (List.replicate 1000000 sym0).length = 1000000
    rw [List.length_replicate]
  rcases hr : growRight (bigM4.tape.set
      (pyIndex bigM4.tape.length (bigM4.head - bigM4.tape_begin)).toNat sym0)
      bigM4.tape_begin 1000000 with ⟨t2, _ | e2⟩
  · rcases hl : growLeft t2 bigM4.tape_begin 1000000 with ⟨t3, tb3, _ | e3⟩
    · have hstep := step_continue_ok bigM4 0 sym0 0 sym0 1000000 _ t2 t3 tb3
        rfl hg hu hs hr hl
      obtain ⟨ht2, -⟩ := growRight_none _ t2 bigM4.tape_begin 1000000 hr
      obtain ⟨ht3, -, -⟩ := growLeft_none t2 t3 bigM4.tape_begin tb3 1000000 hl
      constructor
      · rw [hstep]
      · rw [hstep]
        show t3.length = 1000001
        rw [ht3, ht2]
        simp only [List.length_append, List.length_replicate, hlen1]
        rw [show bigM4.tape_begin = 0 from rfl]
        decide
    · rw [growLeft_ok t2 bigM4.tape_begin 1000000 (Or.inl (by decide))] at hl
      exact absurd hl (by simp)
  · rw [growRight_ok (bigM4.tape.set
      (pyIndex bigM4.tape.length (bigM4.head - bigM4.tape_begin)).toNat sym0)
      bigM4.tape_begin 1000000 (by rw [hlen1]; decide)] at hr
    exact absurd hr (by simp)

/-- Claim C4 (amended): the actual safety behaviour is off by one from the
spec.  For machines whose tape holds at most 1,000,001 cells, a step that
returns normally never leaves more than 1,000,001 cells (so the cap really
enforced is 1,000,001, not 1,000,000); and a Continue step that would need
more than 1,000,001 cells to make the new head addressable — in either
direction — raises `MemoryError` instead of growing further. -/
theorem step_tape_cap_plus_one :
    (∀ m mp r, m.tape.length ≤ 1000001 → step m = (mp, .ok r) →
      mp.tape.length ≤ 1000001) ∧
    (∀ m sid tv ns wtv nh, m.tape.length ≤ 1000001 →
      m.current = some sid →
      pyGet m.tape (m.head - m.tape_begin) = .ok tv →
      (m.env sid).update tv m.head m.implicit_blank_halt =
        .ok (some ns, wtv, nh) →
      1000001 < needLen m nh →
      (step m).2 = .error .memoryError) := by
  constructor
  · intro m mp r hcap hstep
    rcases step_inv m mp (.ok r) hstep with ⟨h1, -, -⟩ |
      ⟨sid, tv, ns, wtv, nh, hc, hg, hu, hca⟩
    · subst h1
      exact hcap
    · rcases hca with ⟨t2, -, -, habs⟩ | ⟨t2, t3, tb3, -, -, -, habs⟩ |
        ⟨t2, t3, tb3, hr, hl, hmp, -⟩
      · exact absurd habs (by simp)
      · exact absurd habs (by simp)
      · obtain ⟨ht2, hb2⟩ := growRight_none _ t2 m.tape_begin nh hr
        obtain ⟨ht3, htb3, hb3⟩ := growLeft_none t2 t3 m.tape_begin tb3 nh hl
        have hlen2 : t2.length = m.tape.length +
            (nh - m.tape_begin + 1 - (m.tape.length : Int)).toNat := by
          rw [ht2]
          simp [List.length_set]
        have hlen3 : t3.length = (m.tape_begin - nh).toNat + t2.length := by
          rw [ht3]
          simp
        simp only [List.length_set] at hb2
        subst hmp
        show t3.length ≤ 1000001
        omega
  · intro m sid tv ns wtv nh hcap hc hg hu hneed
    have hs := pySet_of_pyGet m.tape (m.head - m.tape_begin) tv wtv hg
    obtain ⟨hg1, hg2⟩ := pyGet_ok_inv m.tape (m.head - m.tape_begin) tv hg
    have hlen1 : (m.tape.set
        (pyIndex m.tape.length (m.head - m.tape_begin)).toNat wtv).length =
        m.tape.length := List.length_set _ _ _
    unfold needLen at hneed
    by_cases hR : 1000001 < nh - m.tape_begin + 1
    · obtain ⟨k, hr⟩ := growRight_err
        (m.tape.set (pyIndex m.tape.length (m.head - m.tape_begin)).toNat wtv)
        m.tape_begin nh (by rw [hlen1]; omega)
      have hstep := step_continue_right_err m sid tv ns wtv nh _ _ _
        hc hg hu hs hr
      rw [hstep]
    · have hr := growRight_ok
        (m.tape.set (pyIndex m.tape.length (m.head - m.tape_begin)).toNat wtv)
        m.tape_begin nh (by rw [hlen1]; omega)
      have htb : 1 ≤ m.tape_begin - nh := by omega
      have hk0 : (nh - m.tape_begin + 1 - ((m.tape.set
          (pyIndex m.tape.length (m.head - m.tape_begin)).toNat wtv).length :
            Int)).toNat = 0 := by
        rw [hlen1]
        omega
      rw [hk0] at hr
      obtain ⟨j, hl⟩ := growLeft_err
        (m.tape.set (pyIndex m.tape.length (m.head - m.tape_begin)).toNat wtv ++
          List.replicate 0 BLANK) m.tape_begin nh htb
        (by simp only [List.length_append, List.length_replicate, hlen1]; omega)
      have hstep := step_continue_left_err m sid tv ns wtv nh _ _ _ _ _
        hc hg hu hs hr hl
      rw [hstep]

/-- Witness for the amended C4: a small normal step stays under the
1,000,001-cell bound, and a step needing 1,000,002 cells (tape of exactly
1,000,001 cells, head on the last cell, moving right) raises
`MemoryError`. -/
theorem step_tape_cap_plus_one_witness :
    (step haltM).1.tape.length ≤ 1000001 ∧
      (step bigM4b).2 = .error .memoryError := by
  constructor
  · exact step_tape_cap_plus_one.1 haltM (step haltM).1 false (by decide) rfl
  · refine step_tape_cap_plus_one.2 bigM4b 0 sym0 0 sym0 1000001 ?_ rfl ?_ rfl ?_
    · show (List.replicate 1000001 sym0).length ≤ 1000001
      rw [List.length_replicate]
    · exact pyGet_replicate 1000001 sym0 (bigM4b.head - bigM4b.tape_begin)
        (by decide) (by decide)
    · show (1000001 : Int) < needLen bigM4b 1000001
      unfold needLen
      rw [show bigM4b.tape.length = 1000001 from by
        show (List.replicate 1000001 sym0).length = 1000001
        rw [List.length_replicate]]
      decide

/-- Claim C10: when `step` aborts with the resource-cap `MemoryError`, the
step is not atomic: the write into the pre-move head cell has happened and
the blanks added before the abort remain (some `j` prepended, some `k`
appended, with `tape_begin` shifted down by `j`), while `head`, `current`
and the cell alignment of the old head keep their pre-call values. -/
theorem step_memory_error_effects (m mp : StateMachine) (hInv : Inv m)
    (h : step m = (mp, .error .memoryError)) :
    mp.head = m.head ∧ mp.current = m.current ∧
    ∃ sid tv ns wtv nh, m.current = some sid ∧
      pyGet m.tape (m.head - m.tape_begin) = .ok tv ∧
      (m.env sid).update tv m.head m.implicit_blank_halt =
        .ok (some ns, wtv, nh) ∧
      ∃ j k, mp.tape = List.replicate j BLANK ++
          m.tape.set (m.head - m.tape_begin).toNat wtv ++
          List.replicate k BLANK ∧
        mp.tape_begin = m.tape_begin - (j : Int) := by
  rcases step_inv m mp (.error .memoryError) h with ⟨-, -, habs⟩ |
    ⟨sid, tv, ns, wtv, nh, hc, hg, hu, hca⟩
  · exact absurd rfl habs
  · have hidx : pyIndex m.tape.length (m.head - m.tape_begin) =
        m.head - m.tape_begin :=
      pyIndex_of_nonneg _ _ hInv.1
    rcases hca with ⟨t2, hr, hmp, -⟩ | ⟨t2, t3, tb3, hr, hl, hmp, -⟩ |
      ⟨t2, t3, tb3, -, -, -, habs⟩
    · obtain ⟨-, k, hk⟩ := growRight_some _ t2 m.tape_begin nh _ hr
      subst hmp
      refine ⟨rfl, rfl, sid, tv, ns, wtv, nh, hc, hg, hu, 0, k, ?_, ?_⟩
      · show t2 = _
        rw [hk, hidx]
        simp
      · show m.tape_begin = m.tape_begin - ((0 : Nat) : Int)
        simp
    · obtain ⟨ht2, -⟩ := growRight_none _ t2 m.tape_begin nh hr
      obtain ⟨-, j, hj1, hj2⟩ := growLeft_some t2 t3 m.tape_begin tb3 nh _ hl
      simp only [List.length_set] at ht2
      subst hmp
      refine ⟨rfl, rfl, sid, tv, ns, wtv, nh, hc, hg, hu, j,
        (nh - m.tape_begin + 1 - (m.tape.length : Int)).toNat, ?_, ?_⟩
      · show t3 = _
        rw [hj1, ht2, hidx, List.append_assoc]
      · show tb3 = m.tape_begin - (j : Int)
        exact hj2
    · exact absurd habs (by simp)

/-- Witness for C10: the machine with a 1,000,002-cell tape stepping right
raises `MemoryError` while head and current keep their pre-call values. -/
theorem step_memory_error_effects_witness :
    (step bigM10).2 = .error .memoryError ∧
      (step bigM10).1.head = bigM10.head ∧
      (step bigM10).1.current = bigM10.current := by
  have hg : pyGet bigM10.tape (bigM10.head - bigM10.tape_begin) = .ok sym0 :=
    pyGet_replicate 1000002 sym0 (bigM10.head - bigM10.tape_begin)
      (by decide) (by decide)
  have hu : (bigM10.env 0).update sym0 bigM10.head
      bigM10.implicit_blank_halt = .ok (some 0, sym0, 1000002) := rfl
  have hs := pySet_of_pyGet bigM10.tape (bigM10.head - bigM10.tape_begin)
    sym0 sym0 hg
  have hlen1 : (bigM10.tape.set
      (pyIndex bigM10.tape.length (bigM10.head - bigM10.tape_begin)).toNat
      sym0).length = 1000002 := by
    rw [List.length_set]
    show (List.replicate 1000002 sym0).length = 1000002
    rw [List.length_replicate]
  obtain ⟨k, hr⟩ := growRight_err
    (bigM10.tape.set
      (pyIndex bigM10.tape.length (bigM10.head - bigM10.tape_begin)).toNat sym0)
    bigM10.tape_begin 1000002 (by rw [hlen1]; decide)
  have hstep := step_continue_right_err bigM10 0 sym0 0 sym0 1000002 _ _ _
    rfl hg hu hs hr
  have hInv : Inv bigM10 := by
    refine ⟨by decide, ?_, by decide⟩
    rw [show bigM10.tape.length = 1000002 from by
      show (List.replicate 1000002 sym0).length = 1000002
      rw [List.length_replicate]]
    decide
  have happ := step_memory_error_effects bigM10 (step bigM10).1 hInv
    (by rw [hstep])
  exact ⟨by rw [hstep], happ.1, happ.2.1⟩

end TuringLib
